import Mathlib

/-!
Verification development for the charcle repository (encoding-mirroring and
bidirectional synchronization tool).  The Python sources under
`src/charcle/` are shallowly embedded: pure helpers become Lean functions,
the filesystem becomes an explicit state record, and the external
collaborators (the `codecs` registry, the `chardet` statistical detector and
the `fnmatch` glob matcher of the Python standard library) become explicit
function parameters, since their implementations are outside the repository.
Bytes are modelled as `List Nat`, decoded text as lists of code points,
confidences and modification times as rationals.
-/

namespace Charcle

/-- Association-list lookup modelling Python `dict.get` (first matching key). -/
def alookup {α β : Type} [BEq α] (l : List (α × β)) (k : α) : Option β :=
  match l with
  | [] => none
  | (a, b) :: rest => if a == k then some b else alookup rest k

theorem alookup_mem {α β : Type} [BEq α] [LawfulBEq α] {l : List (α × β)} {k : α} {v : β}
    (h : alookup l k = some v) : (k, v) ∈ l := by
  induction l with
  | nil => simp [alookup] at h
  | cons p rest ih =>
    obtain ⟨a, b⟩ := p
    by_cases hk : a == k
    · simp [alookup, hk] at h
      subst h
      have : a = k := by simpa using hk
      subst this
      exact List.mem_cons_self _ _
    · simp only [alookup, hk, if_neg] at h
      simp only [Bool.false_eq_true, if_false] at h
      exact List.mem_cons_of_mem _ (ih h)

/-- The ASCII upper-to-lower case table; `str.lower` restricted to the
alphabet over which encoding names range. -/
def UPPER_TO_LOWER : List (Char × Char) :=
  [('A','a'), ('B','b'), ('C','c'), ('D','d'), ('E','e'), ('F','f'), ('G','g'),
   ('H','h'), ('I','i'), ('J','j'), ('K','k'), ('L','l'), ('M','m'), ('N','n'),
   ('O','o'), ('P','p'), ('Q','q'), ('R','r'), ('S','s'), ('T','t'), ('U','u'),
   ('V','v'), ('W','w'), ('X','x'), ('Y','y'), ('Z','z')]

/-- Lower-case one character (model of Python `str.lower`, per character). -/
def lowerChar (c : Char) : Char :=
  (alookup UPPER_TO_LOWER c).getD c

/-- Lower-case a string, character by character. -/
def strLower (s : String) : String :=
  ⟨s.data.map lowerChar⟩

theorem lowerChar_idem (c : Char) : lowerChar (lowerChar c) = lowerChar c := by
  unfold lowerChar
  cases h : alookup UPPER_TO_LOWER c with
  | none => simp [h]
  | some v =>
    have hv : (c, v) ∈ UPPER_TO_LOWER := alookup_mem h
    have hall : UPPER_TO_LOWER.all
        (fun p => (alookup UPPER_TO_LOWER p.2).isNone) = true := by decide
    have hnone := List.all_eq_true.mp hall _ hv
    simp only [Option.isNone_iff_eq_none] at hnone
    simp [h, hnone]

theorem mapLower_idem (l : List Char) :
    (l.map lowerChar).map lowerChar = l.map lowerChar := by
  induction l with
  | nil => rfl
  | cons c t ih => simp [List.map_cons, ih, lowerChar_idem c]

theorem strLower_idem (s : String) : strLower (strLower s) = strLower s := by
  unfold strLower
  exact congrArg String.mk (mapLower_idem s.data)

/-! ### `src/charcle/utils/encoding.py` -/

/-- `SUPPORTED_ENCODINGS` from `utils/encoding.py`. -/
def SUPPORTED_ENCODINGS : List String :=
  ["utf-8", "euc-jp", "shift-jis", "iso-2022-jp"]

/-- `ENCODING_ALIASES` from `utils/encoding.py`. -/
def ENCODING_ALIASES : List (String × String) :=
  [("shift_jis", "shift-jis"),
   ("sjis", "shift-jis"),
   ("windows-31j", "shift-jis"),
   ("cp932", "shift-jis"),
   ("eucjp", "euc-jp"),
   ("ujis", "euc-jp"),
   ("jis", "iso-2022-jp")]

/-- `normalize_encoding`: lower-case the name, then resolve aliases. -/
def normalize_encoding (encoding : String) : String :=
  let e := strLower encoding
  (alookup ENCODING_ALIASES e).getD e

/-- `is_supported_encoding`: membership in the catalog after normalization. -/
def is_supported_encoding (encoding : String) : Bool :=
  SUPPORTED_ENCODINGS.contains (normalize_encoding encoding)

/-- A codec as exposed by the Python `codecs` machinery: strict decoding of
bytes to code points and strict encoding back; `none` models the
`UnicodeDecodeError` / `UnicodeEncodeError` outcome. -/
structure Codec where
  decode : List Nat → Option (List Nat)
  encode : List Nat → Option (List Nat)

/-- `detect_encoding`: `chardet` is the external statistical detector,
returning a best-guess name (or `none`) and a confidence.  Mirrors
`utils/encoding.py` lines 55-81. -/
def detect_encoding (chardet : List Nat → Option String × ℚ)
    (content : List Nat) (fallback : String) : String × ℚ :=
  if content.isEmpty then (fallback, 1)
  else
    let result := chardet content
    match result.1 with
    | none => (fallback, 0)
    | some encoding =>
      let normalized := normalize_encoding encoding
      if !is_supported_encoding normalized then (fallback, 0)
      else (normalized, result.2)

/-- `convert_encoding`: `codecsOf` is the external codec registry (`none`
models a `LookupError` for an unregistered name, which the function's
`except (UnicodeDecodeError, UnicodeEncodeError)` clause does not catch, so
it propagates as `Except.error`).  Mirrors `utils/encoding.py` lines
84-106: identity fast path on equal names, otherwise decode with the source
codec and encode with the target codec, returning the original bytes with
`false` on a decode or encode failure. -/
def convert_encoding (codecsOf : String → Option Codec)
    (content : List Nat) (from_encoding to_encoding : String) :
    Except Unit (List Nat × Bool) :=
  if from_encoding = to_encoding then .ok (content, true)
  else
    match codecsOf from_encoding with
    | none => .error ()
    | some cf =>
      match cf.decode content with
      | none => .ok (content, false)
      | some text =>
        match codecsOf to_encoding with
        | none => .error ()
        | some ct =>
          match ct.encode text with
          | none => .ok (content, false)
          | some result => .ok (result, true)

/-! ### A concrete UTF-8 codec, used to instantiate the external registry in
witnesses.  Strict decoding: rejects continuation-lead mismatches, overlong
forms, surrogates and out-of-range values, like Python's `utf-8` codec. -/

/-- Strict UTF-8 decoding of a byte list into code points. -/
def utf8Decode : List Nat → Option (List Nat)
  | [] => some []
  | b :: rest =>
    if b < 0x80 then (utf8Decode rest).map (b :: ·)
    else if b < 0xC2 then none
    else if b < 0xE0 then
      match rest with
      | b2 :: rest2 =>
        if 0x80 ≤ b2 ∧ b2 < 0xC0 then
          (utf8Decode rest2).map (((b - 0xC0) * 64 + (b2 - 0x80)) :: ·)
        else none
      | _ => none
    else if b < 0xF0 then
      match rest with
      | b2 :: b3 :: rest3 =>
        if (0x80 ≤ b2 ∧ b2 < 0xC0) ∧ (0x80 ≤ b3 ∧ b3 < 0xC0) ∧
            (b ≠ 0xE0 ∨ 0xA0 ≤ b2) ∧ (b ≠ 0xED ∨ b2 < 0xA0) then
          (utf8Decode rest3).map
            (((b - 0xE0) * 4096 + (b2 - 0x80) * 64 + (b3 - 0x80)) :: ·)
        else none
      | _ => none
    else if b < 0xF5 then
      match rest with
      | b2 :: b3 :: b4 :: rest4 =>
        if (0x80 ≤ b2 ∧ b2 < 0xC0) ∧ (0x80 ≤ b3 ∧ b3 < 0xC0) ∧
            (0x80 ≤ b4 ∧ b4 < 0xC0) ∧
            (b ≠ 0xF0 ∨ 0x90 ≤ b2) ∧ (b ≠ 0xF4 ∨ b2 < 0x90) then
          (utf8Decode rest4).map
            (((b - 0xF0) * 262144 + (b2 - 0x80) * 4096 +
              (b3 - 0x80) * 64 + (b4 - 0x80)) :: ·)
        else none
      | _ => none
    else none

/-- UTF-8 encoding of one code point. -/
def utf8EncodeChar (c : Nat) : Option (List Nat) :=
  if c < 0x80 then some [c]
  else if c < 0x800 then some [0xC0 + c / 64, 0x80 + c % 64]
  else if c < 0x10000 then
    if 0xD800 ≤ c ∧ c < 0xE000 then none
    else some [0xE0 + c / 4096, 0x80 + (c / 64) % 64, 0x80 + c % 64]
  else if c < 0x110000 then
    some [0xF0 + c / 262144, 0x80 + (c / 4096) % 64,
          0x80 + (c / 64) % 64, 0x80 + c % 64]
  else none

/-- UTF-8 encoding of a code-point list. -/
def utf8Encode (text : List Nat) : Option (List Nat) :=
  (text.mapM utf8EncodeChar).map List.flatten

/-- The UTF-8 codec. -/
def utf8Codec : Codec := ⟨utf8Decode, utf8Encode⟩

/-- A small codec registry used in witnesses: both names map to UTF-8. -/
def witnessRegistry (name : String) : Option Codec :=
  if name = "utf-8" ∨ name = "utf-8-clone" then some utf8Codec else none

/-! ### Claims C9, C6, C3, C4, C5 (encoding primitives) -/

/-- C9: `normalize_encoding` is a total function on strings (it is a Lean
function, hence defined on every input and never failing) and it is
idempotent: normalizing an already-normalized name returns it unchanged,
even for unsupported names. -/
theorem C9_normalize_total_idempotent (s : String) :
    normalize_encoding (normalize_encoding s) = normalize_encoding s := by
  unfold normalize_encoding
  cases h : alookup ENCODING_ALIASES (strLower s) with
  | none =>
    simp only [h, Option.getD_none]
    rw [strLower_idem, h]
    rfl
  | some v =>
    have hv : (strLower s, v) ∈ ENCODING_ALIASES := alookup_mem h
    have hall : ENCODING_ALIASES.all
        (fun p => strLower p.2 == p.2 &&
          (alookup ENCODING_ALIASES p.2).isNone) = true := by decide
    have hp := List.all_eq_true.mp hall _ hv
    simp only [Bool.and_eq_true, beq_iff_eq, Option.isNone_iff_eq_none] at hp
    simp only [h, Option.getD_some]
    rw [hp.1, hp.2]
    rfl

/-- C6: with equal source and target names, `convert_encoding` is the
identity on the bytes with success `true`, for every byte sequence
(malformed ones included) and every registry: no decode/encode round-trip
is performed, so no codec is even consulted. -/
theorem C6_convert_identity (codecsOf : String → Option Codec)
    (content : List Nat) (X : String) :
    convert_encoding codecsOf content X X = .ok (content, true) := by
  simp [convert_encoding]

/-- C3: for distinct encoding names both known to the codec registry,
`convert_encoding` never throws: it returns either successfully re-encoded
bytes with success `true`, or exactly the original bytes with success
`false` on any decode or encode failure (never partially transcoded or
truncated).  The registry-membership hypotheses reflect that an
unregistered name raises `LookupError` in Python, which the function's
`except` clause does not catch; every name in the catalog this system
works with is registered. -/
theorem C3_convert_total_or_original (codecsOf : String → Option Codec)
    (content : List Nat) (f t : String) (cf ct : Codec)
    (hne : f ≠ t) (hf : codecsOf f = some cf) (ht : codecsOf t = some ct) :
    (∃ text out, cf.decode content = some text ∧ ct.encode text = some out ∧
      convert_encoding codecsOf content f t = .ok (out, true)) ∨
    convert_encoding codecsOf content f t = .ok (content, false) := by
  cases hd : cf.decode content with
  | none => exact Or.inr (by simp [convert_encoding, hne, hf, hd])
  | some text =>
    cases he : ct.encode text with
    | none => exact Or.inr (by simp [convert_encoding, hne, hf, hd, ht, he])
    | some out =>
      refine Or.inl ⟨text, out, ?_, ?_, ?_⟩ <;>
        first
          | rfl
          | exact hd
          | exact he
          | simp [convert_encoding, hne, hf, hd, ht, he]

/-- C3 witness: at a byte sequence invalid under UTF-8, the conversion from
`utf-8` to `utf-8-clone` returns the original bytes with success `false`. -/
theorem C3_convert_total_or_original_witness :
    (∃ text out, utf8Codec.decode [0xFF] = some text ∧
      utf8Codec.encode text = some out ∧
      convert_encoding witnessRegistry [0xFF] "utf-8" "utf-8-clone" =
        .ok (out, true)) ∨
    convert_encoding witnessRegistry [0xFF] "utf-8" "utf-8-clone" =
      .ok ([0xFF], false) :=
  C3_convert_total_or_original witnessRegistry [0xFF] "utf-8" "utf-8-clone"
    utf8Codec utf8Codec (by decide) rfl rfl

/-- C4: for non-empty content, when the statistical detector reports no
encoding, or reports one that normalizes outside the supported catalog,
`detect_encoding` returns exactly `(fallback, 0)`; being a total Lean
function it never raises. -/
theorem C4_detect_fallback_zero (chardet : List Nat → Option String × ℚ)
    (content : List Nat) (fallback : String)
    (hne : content ≠ [])
    (hbad : ∀ e, (chardet content).1 = some e →
      is_supported_encoding (normalize_encoding e) = false) :
    detect_encoding chardet content fallback = (fallback, 0) := by
  have hie : content.isEmpty = false := by
    cases content with
    | nil => exact absurd rfl hne
    | cons a l => rfl
  cases h : (chardet content).1 with
  | none => simp [detect_encoding, hie, h]
  | some e => simp [detect_encoding, hie, h, hbad e h]

/-- C4 witness: a detector reporting the unsupported name `latin-1` with
high confidence on the one-byte input `[1]` yields `("euc-jp", 0)`. -/
theorem C4_detect_fallback_zero_witness :
    detect_encoding (fun _ => (some "latin-1", 9/10)) [1] "euc-jp" =
      ("euc-jp", 0) :=
  C4_detect_fallback_zero (fun _ => (some "latin-1", 9/10)) [1] "euc-jp"
    (by decide) (fun e he => by
      simp only at he
      cases he
      decide)

/-- C5: for encoding names `A`, `B` known to the registry, if the bytes are
valid under `A` (its codec decodes them to `text`), every character is
representable in `B` (its codec encodes `text`), and the two codecs are
coherent (encoding inverts decoding on this value, as the real codecs are),
then converting `A`→`B` and back `B`→`A` restores the original bytes
byte-for-byte, both conversions succeeding. -/
theorem C5_convert_round_trip (codecsOf : String → Option Codec)
    (A B : String) (content text mid : List Nat) (cA cB : Codec)
    (hA : codecsOf A = some cA) (hB : codecsOf B = some cB)
    (hdecA : cA.decode content = some text)
    (hencB : cB.encode text = some mid)
    (hdecB : cB.decode mid = some text)
    (hencA : cA.encode text = some content) :
    convert_encoding codecsOf content A B = .ok (mid, true) ∧
    convert_encoding codecsOf mid B A = .ok (content, true) := by
  by_cases hAB : A = B
  · subst hAB
    rw [hB] at hA
    have hc : cB = cA := by injection hA
    subst hc
    rw [hencA] at hencB
    have hmc : content = mid := by injection hencB
    subst hmc
    exact ⟨by simp [convert_encoding], by simp [convert_encoding]⟩
  · have hBA : ¬B = A := fun h => hAB h.symm
    constructor
    · simp [convert_encoding, hAB, hA, hdecA, hB, hencB]
    · simp [convert_encoding, hBA, hB, hdecB, hA, hencA]

/-- C5 witness: the bytes `[0xE3, 0x81, 0x82]` (UTF-8 for one Japanese
character) round-trip between the registered names `utf-8` and
`utf-8-clone`. -/
theorem C5_convert_round_trip_witness :
    convert_encoding witnessRegistry [0xE3, 0x81, 0x82] "utf-8" "utf-8-clone" =
      .ok ([0xE3, 0x81, 0x82], true) ∧
    convert_encoding witnessRegistry [0xE3, 0x81, 0x82] "utf-8-clone" "utf-8" =
      .ok ([0xE3, 0x81, 0x82], true) :=
  C5_convert_round_trip witnessRegistry "utf-8" "utf-8-clone"
    [0xE3, 0x81, 0x82] [0x3042] [0xE3, 0x81, 0x82] utf8Codec utf8Codec
    rfl rfl (by decide) (by decide) (by decide) (by decide)

/-! ### Character-level string helpers (kernel-computable models of the
Python string operations used by the sources) -/

/-- Does the character list `l` start with `p`? -/
def chHasPre (p l : List Char) : Bool :=
  match p, l with
  | [], _ => true
  | _ :: _, [] => false
  | c :: ps, d :: cs => c == d && chHasPre ps cs

/-- Python `s.startswith(pre)`. -/
def strStartsWith (s pre : String) : Bool :=
  chHasPre pre.data s.data

/-- Python `s.endswith(post)`. -/
def strEndsWith (s post : String) : Bool :=
  chHasPre post.data.reverse s.data.reverse

/-- Split a character list on a separator character (Python
`str.split(sep)` semantics for a one-character separator). -/
def chSplitAux (sep : Char) : List Char → List Char → List (List Char)
  | [], acc => [acc.reverse]
  | c :: rest, acc =>
    if c == sep then acc.reverse :: chSplitAux sep rest []
    else chSplitAux sep rest (c :: acc)

/-- Python `s.split(sep)` for a one-character separator. -/
def strSplit (s : String) (sep : Char) : List String :=
  (chSplitAux sep s.data []).map String.mk

/-- Join path components with a slash. -/
def joinSlash : List String → String
  | [] => ""
  | [x] => x
  | x :: xs => x ++ "/" ++ joinSlash xs

/-- Python `s.isEmpty` test. -/
def strIsEmpty (s : String) : Bool :=
  s.data.isEmpty

/-- Python `s[n:]` by characters. -/
def strDrop (s : String) (n : Nat) : String :=
  ⟨s.data.drop n⟩

/-! ### `src/charcle/utils/filesystem.py` -/

/-- `os.path.basename` for POSIX paths. -/
def basename (path : String) : String :=
  (strSplit path '/').getLastD ""

/-- `os.path.dirname` for POSIX paths. -/
def dirname (path : String) : String :=
  let parts := strSplit path '/'
  if parts.length ≤ 1 then ""
  else
    let d := joinSlash parts.dropLast
    if strIsEmpty d && strStartsWith path "/" then "/" else d

/-- `os.path.join` for a non-absolute second component. -/
def pjoin (a b : String) : String :=
  if strIsEmpty a then b
  else if strEndsWith a "/" then a ++ b
  else a ++ "/" ++ b

/-- `should_exclude` from `utils/filesystem.py`: a path is excluded when
any pattern glob-matches the whole path or one of its segments, or equals
the base name or one of the segments.  The external `fnmatch` matcher is a
parameter. -/
def should_exclude (fnmatch : String → String → Bool)
    (path : String) (exclude_patterns : List String) : Bool :=
  if exclude_patterns.isEmpty then false
  else
    let path_parts := strSplit path '/'
    exclude_patterns.any (fun pat =>
      fnmatch path pat ||
      path_parts.any (fun part => fnmatch part pat) ||
      basename path == pat ||
      path_parts.contains pat)

/-- The content sniff of `is_text_file` on the first 4096 bytes: a NUL
byte, or a control-byte fraction above 3/10 (tab, LF, CR excluded), means
binary. -/
def chunkIsText (chunk : List Nat) : Bool :=
  if chunk.contains 0 then false
  else
    let control := chunk.countP (fun b => decide (b < 32 ∧ b ≠ 9 ∧ b ≠ 10 ∧ b ≠ 13))
    if 0 < chunk.length ∧ 3 * chunk.length < 10 * control then false
    else true

/-! ### The filesystem state -/

/-- A directory entry for a regular file (or symbolic link): content
bytes, modification time, link flag. -/
structure FileInfo where
  content : List Nat
  mtime : ℚ
  isLink : Bool
deriving DecidableEq

/-- Filesystem state: file entries keyed by absolute path, plus the
directories. -/
structure FS where
  files : List (String × FileInfo)
  dirs : List String
deriving DecidableEq

/-- Look up the file entry at `p`. -/
def FS.getFile (fs : FS) (p : String) : Option FileInfo :=
  alookup fs.files p

/-- `os.path.isfile`. -/
def FS.isFile (fs : FS) (p : String) : Bool :=
  (fs.getFile p).isSome

/-- `os.path.exists`. -/
def FS.pathExists (fs : FS) (p : String) : Bool :=
  fs.isFile p || fs.dirs.contains p

/-- `os.path.getmtime` (only ever compared for paths that are files). -/
def FS.getMtime (fs : FS) (p : String) : ℚ :=
  match fs.getFile p with
  | some fi => fi.mtime
  | none => 0

/-- `os.makedirs`. -/
def FS.makedirs (fs : FS) (p : String) : FS :=
  { fs with dirs := p :: fs.dirs }

/-- `os.remove` (no effect when `p` has no file entry, modelling the
caught `OSError`). -/
def FS.removeFile (fs : FS) (p : String) : FS :=
  { fs with files := fs.files.filter (fun e => !(e.1 == p)) }

/-- Write `content` at `p`; the resulting modification time is immaterial
because every caller runs `copy_metadata` immediately afterwards. -/
def FS.writeFile (fs : FS) (p : String) (content : List Nat) : FS :=
  { fs with files := (p, ⟨content, 0, false⟩) :: fs.files.filter (fun e => !(e.1 == p)) }

/-- `copy_metadata`: transfer the source modification time onto `dst`. -/
def FS.copyMtime (fs : FS) (src dst : String) : FS :=
  match fs.getFile src with
  | none => fs
  | some sfi =>
    { fs with files := fs.files.map (fun e =>
        if e.1 == dst then (e.1, { e.2 with mtime := sfi.mtime }) else e) }

/-- `is_text_file` from `utils/filesystem.py`: false for a missing entry,
false over the configured size ceiling, otherwise the 4096-byte sniff. -/
def is_text_file (fs : FS) (p : String) (max_size : Option Nat) : Bool :=
  match fs.getFile p with
  | none => false
  | some fi =>
    match max_size with
    | some m =>
      if fi.content.length > m then false
      else chunkIsText (fi.content.take 4096)
    | none => chunkIsText (fi.content.take 4096)

/-! ### `src/charcle/converter.py` -/

/-- The `Converter` configuration.  `fallback_charset` is referenced on
`Converter` instances by the watcher, the CLI and the tests, although the
constructor in `converter.py` does not declare it; modelled from the spec
(configuration includes an optional fallback charset; `none` and the empty
string are falsy). -/
structure ConvCfg where
  from_encoding : Option String
  to_encoding : String
  max_size : Option Nat
  exclude_patterns : List String
  fallback_charset : Option String
deriving DecidableEq

/-- Python truthiness of an optional string. -/
def truthy : Option String → Bool
  | none => false
  | some s => !strIsEmpty s

/-- Python `x or default` for an optional string. -/
def orDefault (o : Option String) (d : String) : String :=
  match o with
  | some s => if strIsEmpty s then d else s
  | none => d

/-- The external collaborators: glob matcher, statistical detector and
codec registry. -/
structure Ext where
  fnmatch : String → String → Bool
  chardet : List Nat → Option String × ℚ
  codecsOf : String → Option Codec

/-- `Converter.convert_file` acting on the filesystem: transcode a text
file (success writes the converted bytes, a decode/encode failure or a
raised registry error degrades to a verbatim copy), copy a binary file
verbatim, and always copy the metadata afterwards.  A missing source makes
the Python function raise before writing anything; every caller catches
per-file errors, which the unchanged branch models. -/
def convert_file (ext : Ext) (cfg : ConvCfg) (fs : FS)
    (src_file dst_file : String) : FS :=
  match fs.getFile src_file with
  | none => fs
  | some sfi =>
    let written :=
      if is_text_file fs src_file cfg.max_size then
        let content := sfi.content
        let from_encoding :=
          match cfg.from_encoding with
          | some e => e
          | none => (detect_encoding ext.chardet content "utf-8").1
        match convert_encoding ext.codecsOf content from_encoding cfg.to_encoding with
        | .ok (converted, true) => fs.writeFile dst_file converted
        | .ok (_, false) => fs.writeFile dst_file sfi.content
        | .error _ => fs.writeFile dst_file sfi.content
      else fs.writeFile dst_file sfi.content
    written.copyMtime src_file dst_file

/-! ### `src/charcle/watcher.py` -/

/-- `Watcher._is_temp_editor_file`. -/
def is_temp_editor_file (filename : String) : Bool :=
  if strEndsWith filename ".swp" || strEndsWith filename ".swo" then true
  else if strStartsWith filename "#" && strEndsWith filename "#" then true
  else if strEndsWith filename "~" then true
  else if strStartsWith filename "." && strEndsWith filename ".tmp" then true
  else false

/-- Watcher state: the filesystem, the fallback-file set, and the snapshot
mapping `side:relativePath` to the last observed modification time. -/
structure WatcherState where
  fs : FS
  fallbackFiles : List String
  fileMtimes : List (String × ℚ)
deriving DecidableEq

/-- `Watcher._determine_encoding` (lines 199-248): resolve the write-back
target encoding for `src_file` and update the fallback-file set.  The
first component is the resolved encoding (`none` when the forward
configuration has no explicit source encoding and nothing overrides it). -/
def determine_encoding (ext : Ext) (cfg : ConvCfg) (fs : FS)
    (fallbackFiles : List String) (src_file rel_path : String) :
    Option String × List String :=
  let to_encoding := cfg.from_encoding
  let is_fallback_file := fallbackFiles.contains rel_path
  if !fs.pathExists src_file then
    if truthy cfg.fallback_charset then
      (cfg.fallback_charset, fallbackFiles.insert rel_path)
    else (to_encoding, fallbackFiles)
  else if is_fallback_file && truthy cfg.fallback_charset then
    (cfg.fallback_charset, fallbackFiles)
  else
    match fs.getFile src_file with
    | some fi =>
      let content := fi.content
      let is_ascii_only := content.all (fun b => decide (b ≤ 127))
      if is_ascii_only && is_fallback_file && truthy cfg.fallback_charset then
        (cfg.fallback_charset, fallbackFiles)
      else
        let det := detect_encoding ext.chardet content "utf-8"
        if (7 : ℚ)/10 ≤ det.2 then
          (some det.1,
            if is_fallback_file then fallbackFiles.erase rel_path
            else fallbackFiles)
        else (to_encoding, fallbackFiles)
    | none => (to_encoding, fallbackFiles)

/-- `Watcher._handle_destination_change` (lines 250-291): write a changed
destination file back to the source tree, guarded by exclusion, existence
and the feedback-loop modification-time comparison. -/
def handle_destination_change (ext : Ext) (cfg : ConvCfg)
    (src_dir dst_dir : String) (st : WatcherState) (rel_path : String) :
    WatcherState :=
  if should_exclude ext.fnmatch rel_path cfg.exclude_patterns then st
  else
    let dst_file := pjoin dst_dir rel_path
    let src_file := pjoin src_dir rel_path
    let src_parent := dirname src_file
    if !(st.fs.pathExists dst_file && st.fs.isFile dst_file) then st
    else
      let fs1 :=
        if st.fs.pathExists src_parent then st.fs
        else st.fs.makedirs src_parent
      if fs1.pathExists src_file &&
          decide (fs1.getMtime dst_file ≤ fs1.getMtime src_file) then
        { st with fs := fs1 }
      else
        let de := determine_encoding ext cfg fs1 st.fallbackFiles src_file rel_path
        let reverse_cfg : ConvCfg :=
          { from_encoding := some cfg.to_encoding,
            to_encoding := orDefault de.1 "utf-8",
            max_size := none,
            exclude_patterns := cfg.exclude_patterns,
            fallback_charset := none }
        { st with fs := convert_file ext reverse_cfg fs1 dst_file src_file,
                  fallbackFiles := de.2 }

/-- `Watcher._handle_source_change`: push a changed source file forward. -/
def handle_source_change (ext : Ext) (cfg : ConvCfg)
    (src_dir dst_dir : String) (st : WatcherState) (rel_path : String) :
    WatcherState :=
  let src_file := pjoin src_dir rel_path
  let dst_file := pjoin dst_dir rel_path
  let dst_parent := dirname dst_file
  let fs1 :=
    if st.fs.pathExists dst_parent then st.fs
    else st.fs.makedirs dst_parent
  { st with fs := convert_file ext cfg fs1 src_file dst_file }

/-- `Watcher._handle_deleted_file` (lines 293-321): skip transient editor
artifacts, otherwise remove the mirrored opposite-side file when it still
exists (a failing `os.remove`, e.g. on a directory, is caught and leaves
the state unchanged, as does a missing opposite file). -/
def handle_deleted_file (src_dir dst_dir : String) (fs : FS)
    (side rel_path : String) : FS :=
  if is_temp_editor_file (basename rel_path) then fs
  else if side == "src" then
    let dst_file := pjoin dst_dir rel_path
    if fs.pathExists dst_file then fs.removeFile dst_file else fs
  else if side == "dst" then
    let src_file := pjoin src_dir rel_path
    if fs.pathExists src_file then fs.removeFile src_file else fs
  else fs

/-- Relative path of `p` inside `dir`, for `p` strictly under `dir`. -/
def relUnder (dir p : String) : String :=
  strDrop p (dir.data.length + 1)

/-- The `os.path.relpath(root, directory)` of the directory containing a
file whose relative path is `relUnder directory p`: the string before the
last slash, or `"."` for a top-level file. -/
def scanRelDir (directory p : String) : String :=
  if (strSplit (relUnder directory p) '/').length ≤ 1 then "."
  else dirname (relUnder directory p)

/-- One file entry of `Watcher._scan_files`: skipped when the containing
directory's relative path is excluded, when the entry is a symbolic link,
a transient editor artifact, or itself excluded; otherwise contributes
`side:relativePath ↦ mtime`. -/
def scanEntry (ext : Ext) (patterns : List String) (directory side : String)
    (e : String × FileInfo) : Option (String × ℚ) :=
  if strStartsWith e.1 (directory ++ "/") then
    if scanRelDir directory e.1 != "." &&
        should_exclude ext.fnmatch (scanRelDir directory e.1) patterns then
      none
    else if e.2.isLink then none
    else if is_temp_editor_file (basename (relUnder directory e.1)) then none
    else if should_exclude ext.fnmatch (relUnder directory e.1) patterns then
      none
    else some (side ++ ":" ++ relUnder directory e.1, e.2.mtime)
  else none

/-- `Watcher._scan_files` (lines 141-179): collect `side:relativePath ↦
mtime` for every file under `directory` that `scanEntry` keeps. -/
def scan_files (ext : Ext) (patterns : List String) (fs : FS)
    (directory side : String) : List (String × ℚ) :=
  if !fs.pathExists directory then []
  else fs.files.filterMap (scanEntry ext patterns directory side)

/-- Join with a colon separator. -/
def joinColon : List String → String
  | [] => ""
  | [x] => x
  | x :: xs => x ++ ":" ++ joinColon xs

/-- `key.split(":", 1)`. -/
def splitKey (key : String) : String × String :=
  let parts := strSplit key ':'
  (parts.headD "", joinColon parts.tail)

/-- One dispatch of `_process_changes` for a new or modified key. -/
def dispatch_change (ext : Ext) (cfg : ConvCfg) (src_dir dst_dir : String)
    (st : WatcherState) (key : String) : WatcherState :=
  let pr := splitKey key
  if pr.1 == "src" then handle_source_change ext cfg src_dir dst_dir st pr.2
  else if pr.1 == "dst" then
    handle_destination_change ext cfg src_dir dst_dir st pr.2
  else st

/-- `Watcher._process_changes` (lines 323-358): one tick.  Scan both
trees, dispatch every new or strictly-newer key, propagate deletions for
keys that vanished from the snapshot, and replace the snapshot. -/
def process_changes (ext : Ext) (cfg : ConvCfg) (src_dir dst_dir : String)
    (st : WatcherState) : WatcherState :=
  let current :=
    scan_files ext cfg.exclude_patterns st.fs src_dir "src" ++
    scan_files ext cfg.exclude_patterns st.fs dst_dir "dst"
  let st1 := current.foldl (fun acc km =>
    match alookup st.fileMtimes km.1 with
    | none => dispatch_change ext cfg src_dir dst_dir acc km.1
    | some old =>
      if old < km.2 then dispatch_change ext cfg src_dir dst_dir acc km.1
      else acc) st
  let deleted := st.fileMtimes.filter
    (fun km => !(current.any (fun c => c.1 == km.1)))
  let st2 := deleted.foldl (fun acc km =>
    let pr := splitKey km.1
    { acc with fs := handle_deleted_file src_dir dst_dir acc.fs pr.1 pr.2 }) st1
  { st2 with fileMtimes := current }

/-! ### Small facts about the filesystem state, shared by several claims -/

theorem FS.getFile_makedirs (fs : FS) (p q : String) :
    (fs.makedirs p).getFile q = fs.getFile q := rfl

theorem FS.files_makedirs (fs : FS) (p : String) :
    (fs.makedirs p).files = fs.files := rfl

theorem FS.isFile_of_getFile {fs : FS} {p : String} {fi : FileInfo}
    (h : fs.getFile p = some fi) : fs.isFile p = true := by
  simp [FS.isFile, h]

theorem FS.pathExists_of_getFile {fs : FS} {p : String} {fi : FileInfo}
    (h : fs.getFile p = some fi) : fs.pathExists p = true := by
  simp [FS.pathExists, FS.isFile_of_getFile h]

theorem FS.getMtime_of_getFile {fs : FS} {p : String} {fi : FileInfo}
    (h : fs.getFile p = some fi) : fs.getMtime p = fi.mtime := by
  simp [FS.getMtime, h]

/-! ### Claim C1 (feedback-loop guard) -/

/-- C1: when a destination-side change is handled and the paired source
file exists, no write-back happens unless the destination's modification
time is strictly newer than the source's: with `dst.mtime ≤ src.mtime` the
handler leaves every file entry (in particular the source file) and the
fallback-file set unchanged. -/
theorem C1_feedback_loop_guard (ext : Ext) (cfg : ConvCfg)
    (src_dir dst_dir : String) (st : WatcherState) (rel_path : String)
    (dfi sfi : FileInfo)
    (hd : st.fs.getFile (pjoin dst_dir rel_path) = some dfi)
    (hs : st.fs.getFile (pjoin src_dir rel_path) = some sfi)
    (hm : dfi.mtime ≤ sfi.mtime) :
    (handle_destination_change ext cfg src_dir dst_dir st rel_path).fs.files =
      st.fs.files ∧
    (handle_destination_change ext cfg src_dir dst_dir st rel_path).fallbackFiles =
      st.fallbackFiles := by
  unfold handle_destination_change
  cases hex : should_exclude ext.fnmatch rel_path cfg.exclude_patterns with
  | true => simp [hex]
  | false =>
    have hde : st.fs.pathExists (pjoin dst_dir rel_path) = true :=
      FS.pathExists_of_getFile hd
    have hdf : st.fs.isFile (pjoin dst_dir rel_path) = true :=
      FS.isFile_of_getFile hd
    simp only [hex, Bool.false_eq_true, if_false, hde, hdf, Bool.and_self,
      Bool.not_true]
    by_cases hsp : st.fs.pathExists (dirname (pjoin src_dir rel_path)) = true
    · simp only [hsp, if_true]
      have hse : st.fs.pathExists (pjoin src_dir rel_path) = true :=
        FS.pathExists_of_getFile hs
      have hmt : st.fs.getMtime (pjoin dst_dir rel_path) ≤
          st.fs.getMtime (pjoin src_dir rel_path) := by
        rw [FS.getMtime_of_getFile hd, FS.getMtime_of_getFile hs]
        exact hm
      simp [hse, hmt]
    · simp only [eq_self_iff_true, Bool.not_eq_true] at hsp
      simp only [hsp, Bool.false_eq_true, if_false]
      have hgs : (st.fs.makedirs (dirname (pjoin src_dir rel_path))).getFile
          (pjoin src_dir rel_path) = some sfi := hs
      have hgd : (st.fs.makedirs (dirname (pjoin src_dir rel_path))).getFile
          (pjoin dst_dir rel_path) = some dfi := hd
      have hse := FS.pathExists_of_getFile hgs
      have hmt : (st.fs.makedirs (dirname (pjoin src_dir rel_path))).getMtime
          (pjoin dst_dir rel_path) ≤
          (st.fs.makedirs (dirname (pjoin src_dir rel_path))).getMtime
          (pjoin src_dir rel_path) := by
        rw [FS.getMtime_of_getFile hgd, FS.getMtime_of_getFile hgs]
        exact hm
      simp [hse, hmt, FS.files_makedirs]

/-- C1 witness: a concrete state where the destination file is not newer
than the source file; the handler changes nothing. -/
theorem C1_feedback_loop_guard_witness :
    (handle_destination_change
      ⟨fun p pat => p == pat, fun _ => (none, 0), witnessRegistry⟩
      ⟨none, "utf-8", none, [], some "euc-jp"⟩ "/s" "/d"
      ⟨⟨[("/d/a.txt", ⟨[65], 1, false⟩), ("/s/a.txt", ⟨[65], 2, false⟩)],
        ["/s", "/d"]⟩, [], []⟩ "a.txt").fs.files =
      [("/d/a.txt", ⟨[65], 1, false⟩), ("/s/a.txt", ⟨[65], 2, false⟩)] ∧
    (handle_destination_change
      ⟨fun p pat => p == pat, fun _ => (none, 0), witnessRegistry⟩
      ⟨none, "utf-8", none, [], some "euc-jp"⟩ "/s" "/d"
      ⟨⟨[("/d/a.txt", ⟨[65], 1, false⟩), ("/s/a.txt", ⟨[65], 2, false⟩)],
        ["/s", "/d"]⟩, [], []⟩ "a.txt").fallbackFiles = [] :=
  C1_feedback_loop_guard
    ⟨fun p pat => p == pat, fun _ => (none, 0), witnessRegistry⟩
    ⟨none, "utf-8", none, [], some "euc-jp"⟩ "/s" "/d"
    ⟨⟨[("/d/a.txt", ⟨[65], 1, false⟩), ("/s/a.txt", ⟨[65], 2, false⟩)],
      ["/s", "/d"]⟩, [], []⟩ "a.txt"
    ⟨[65], 1, false⟩ ⟨[65], 2, false⟩ (by decide) (by decide) (by decide)

/-! ### Claim C2 (fallback-file set maintenance) -/

/-- Concrete externals for the C2 counterexample: the statistical detector
always reports `utf-8` with confidence 1. -/
def c2Ext : Ext :=
  { fnmatch := fun p pat => p == pat,
    chardet := fun _ => (some "utf-8", 1),
    codecsOf := witnessRegistry }

/-- Concrete configuration for the C2 counterexample: write-back with the
fallback charset `euc-jp` configured. -/
def c2Cfg : ConvCfg :=
  { from_encoding := none, to_encoding := "utf-8", max_size := none,
    exclude_patterns := [], fallback_charset := some "euc-jp" }

/-- Filesystem for the C2 counterexample removal part: the tagged source
file holds a non-ASCII byte, so detection would be consulted and would
confidently report a non-fallback encoding. -/
def c2FS : FS :=
  { files := [("/s/a.txt", ⟨[0xE3], 1, false⟩)], dirs := ["/s"] }

/-- Watcher state for the C2 counterexample addition part: a new
destination-side file with non-ASCII content and no source counterpart. -/
def c2St : WatcherState :=
  { fs := { files := [("/d/b.bin", ⟨[0x90], 5, false⟩)], dirs := ["/s", "/d"] },
    fallbackFiles := [],
    fileMtimes := [] }

/-- C2 counterexample.  The claim fails on the code in both directions.
Removal: with the path `a.txt` in the fallback-file set, a configured
fallback charset, and source content `[0xE3]` whose detection reports the
non-fallback encoding `utf-8` with confidence 1 ≥ 7/10,
`_determine_encoding` still returns the fallback charset and keeps the
membership — the tagged-path branch returns before detection ever runs, so
membership is never removed.  Addition: a brand-new destination path
`b.bin` whose content `[0x90]` is not ASCII-only is nevertheless added to
the set, because the source-missing branch never examines content. -/
theorem C2_fallback_set_counterexample :
    determine_encoding c2Ext c2Cfg c2FS ["a.txt"] "/s/a.txt" "a.txt" =
      (some "euc-jp", ["a.txt"]) ∧
    detect_encoding c2Ext.chardet [0xE3] "utf-8" = ("utf-8", 1) ∧
    ((7 : ℚ)/10 ≤ 1) ∧
    "utf-8" ≠ "euc-jp" ∧
    (handle_destination_change c2Ext c2Cfg "/s" "/d" c2St "b.bin").fallbackFiles =
      ["b.bin"] ∧
    [0x90].all (fun b => decide (b ≤ 127)) = false := by
  exact ⟨by decide, by decide, by norm_num, by decide, by decide, by decide⟩

/-- C2 (amended): while a fallback charset is configured, a
destination-side path whose paired source file does not exist is added to
the fallback-file set regardless of its content, and the fallback charset
is used for its write-back; a path already in the set keeps its membership
and is written back with the fallback charset whatever the source content
allows the detector to report — membership is never removed. -/
theorem C2_fallback_set_amended (ext : Ext) (cfg : ConvCfg) (fs : FS)
    (fallbackFiles : List String) (src_file rel_path : String)
    (hfb : truthy cfg.fallback_charset = true) :
    (fs.pathExists src_file = false →
      determine_encoding ext cfg fs fallbackFiles src_file rel_path =
        (cfg.fallback_charset, fallbackFiles.insert rel_path)) ∧
    (fallbackFiles.contains rel_path = true →
      determine_encoding ext cfg fs fallbackFiles src_file rel_path =
        (cfg.fallback_charset, fallbackFiles)) := by
  constructor
  · intro hne
    simp [determine_encoding, hne, hfb]
  · intro hmem
    have hm : rel_path ∈ fallbackFiles := by simpa using hmem
    cases hex : fs.pathExists src_file with
    | false =>
      have hins : fallbackFiles.insert rel_path = fallbackFiles :=
        List.insert_of_mem hm
      simp [determine_encoding, hex, hfb, hins]
    | true =>
      have hcond : (fallbackFiles.contains rel_path &&
          truthy cfg.fallback_charset) = true := by
        rw [hmem, hfb]
        rfl
      simp [determine_encoding, hex, hcond]
      intro h
      rw [h hm] at hfb
      exact Bool.noConfusion hfb

/-- C2 amended witness: concrete instances of both parts. -/
theorem C2_fallback_set_amended_witness :
    determine_encoding c2Ext c2Cfg c2FS [] "/s/new.txt" "new.txt" =
      (some "euc-jp", ["new.txt"]) ∧
    determine_encoding c2Ext c2Cfg c2FS ["a.txt"] "/s/a.txt" "a.txt" =
      (some "euc-jp", ["a.txt"]) :=
  ⟨(C2_fallback_set_amended c2Ext c2Cfg c2FS [] "/s/new.txt" "new.txt"
      (by decide)).1 (by decide),
   (C2_fallback_set_amended c2Ext c2Cfg c2FS ["a.txt"] "/s/a.txt" "a.txt"
      (by decide)).2 (by decide)⟩

/-! ### Claim C8 (deletion propagation) -/

/-- C8: for a deleted key (present in the previous snapshot, absent from
the new one, for which `process_changes` invokes `handle_deleted_file`),
the handler skips transient editor artifacts, and otherwise removes the
mirrored opposite-side file exactly when that opposite file still exists:
a `src` deletion removes the destination mirror, a `dst` deletion removes
the source mirror. -/
theorem C8_deletion_propagation (src_dir dst_dir : String) (fs : FS)
    (rel_path : String) :
    (handle_deleted_file src_dir dst_dir fs "src" rel_path =
      if is_temp_editor_file (basename rel_path) then fs
      else if fs.pathExists (pjoin dst_dir rel_path) then
        fs.removeFile (pjoin dst_dir rel_path)
      else fs) ∧
    (handle_deleted_file src_dir dst_dir fs "dst" rel_path =
      if is_temp_editor_file (basename rel_path) then fs
      else if fs.pathExists (pjoin src_dir rel_path) then
        fs.removeFile (pjoin src_dir rel_path)
      else fs) := by
  unfold handle_deleted_file
  constructor <;> simp

/-! ### `Converter.convert_directory`: the pruned `os.walk` traversal

The walk operates on a directory tree, represented as a list of entries
(`FEnts`): a directory entry carries its own sub-entries.  `walkTree rel
es` returns the destination directories created, the destination files
produced (tagged with whether the source entry was a symbolic link, which
`convert_directory` remaps via `handle_symlink` instead of converting),
and, in order, every relative path tested against the exclusion pattern
set — the `dirs[:]` pruning comprehension tests each child directory once,
and each file at a visited root is tested once.  The per-file content
effect is `convert_file`, modelled separately on the flat filesystem
state. -/

inductive FEnts where
  | nil : FEnts
  | consDir (name : String) (sub : FEnts) (rest : FEnts) : FEnts
  | consFile (name : String) (content : List Nat) (isLink : Bool)
      (rest : FEnts) : FEnts

/-- Concatenation of entry lists. -/
def entsApp : FEnts → FEnts → FEnts
  | .nil, b => b
  | .consDir n s rest, b => .consDir n s (entsApp rest b)
  | .consFile n c l rest, b => .consFile n c l (entsApp rest b)

/-- Result of a walk: destination directories created, destination files
produced (with the source-is-symlink flag), and the relative paths tested
against the exclusion patterns, in test order. -/
structure WalkRes where
  dirsMade : List String
  filesOut : List (String × Bool)
  tested : List String

/-- Concatenate two walk results. -/
def WalkRes.append (a b : WalkRes) : WalkRes :=
  ⟨a.dirsMade ++ b.dirsMade, a.filesOut ++ b.filesOut, a.tested ++ b.tested⟩

/-- The relative path of a child root as `os.path.relpath` recomputes it
when `os.walk` descends (no leading `./`). -/
def walkJoin (rel name : String) : String :=
  if rel == "." then name else rel ++ "/" ++ name

/-- The `dirs[:]` comprehension of `convert_directory` tests
`os.path.join(rel_path, d)` for every child directory `d`. -/
def dirTests (rel : String) : FEnts → List String
  | .nil => []
  | .consDir name _ rest => pjoin rel name :: dirTests rel rest
  | .consFile _ _ _ rest => dirTests rel rest

/-- The per-file loop of `convert_directory` at one visited root: test
`os.path.join(rel_path, file)`, skip excluded files, output the rest. -/
def procFiles (fm : String → String → Bool) (pats : List String)
    (rel : String) : FEnts → WalkRes
  | .nil => ⟨[], [], []⟩
  | .consDir _ _ rest => procFiles fm pats rel rest
  | .consFile name _ isLink rest =>
    let t := pjoin rel name
    let res := procFiles fm pats rel rest
    if should_exclude fm t pats then
      ⟨res.dirsMade, res.filesOut, t :: res.tested⟩
    else
      ⟨res.dirsMade, (walkJoin rel name, isLink) :: res.filesOut,
        t :: res.tested⟩

mutual
/-- `convert_directory`'s walk of the directory whose entries are `es`,
at relative path `rel`: create the destination root, test and prune child
directories, process files, and descend only into kept children. -/
def walkTree (fm : String → String → Bool) (pats : List String)
    (rel : String) (es : FEnts) : WalkRes :=
  let fres := procFiles fm pats rel es
  let sres := walkSubs fm pats rel es
  ⟨rel :: sres.dirsMade, fres.filesOut ++ sres.filesOut,
    dirTests rel es ++ fres.tested ++ sres.tested⟩
termination_by (sizeOf es, 1)

/-- Walk the kept child directories of a visited root: a child whose
joined relative path matches the exclusion patterns is pruned — the walk
never descends into it. -/
def walkSubs (fm : String → String → Bool) (pats : List String)
    (rel : String) : FEnts → WalkRes
  | .nil => ⟨[], [], []⟩
  | .consFile _ _ _ rest => walkSubs fm pats rel rest
  | .consDir name sub rest =>
    if should_exclude fm (pjoin rel name) pats then walkSubs fm pats rel rest
    else (walkTree fm pats (walkJoin rel name) sub).append
      (walkSubs fm pats rel rest)
termination_by es => (sizeOf es, 0)
decreasing_by all_goals (simp_wf; omega)
end

/-! ### Claim C7 (transitive directory exclusion) -/

theorem dirTests_subtree_irrelevant (rel name : String) (subA subB : FEnts)
    (es1 es2 : FEnts) :
    dirTests rel (entsApp es1 (.consDir name subA es2)) =
    dirTests rel (entsApp es1 (.consDir name subB es2)) := by
  induction es1 with
  | nil => rfl
  | consDir n s rest ihs ih => simp [entsApp, dirTests, ih]
  | consFile n c l rest ih => simp [entsApp, dirTests, ih]

theorem procFiles_subtree_irrelevant (fm : String → String → Bool)
    (pats : List String) (rel name : String) (subA subB : FEnts)
    (es1 es2 : FEnts) :
    procFiles fm pats rel (entsApp es1 (.consDir name subA es2)) =
    procFiles fm pats rel (entsApp es1 (.consDir name subB es2)) := by
  induction es1 with
  | nil => rfl
  | consDir n s rest ihs ih => simp [entsApp, procFiles, ih]
  | consFile n c l rest ih => simp [entsApp, procFiles, ih]

theorem walkSubs_excluded_subtree_irrelevant (fm : String → String → Bool)
    (pats : List String) (rel name : String) (subA subB : FEnts)
    (es1 es2 : FEnts)
    (hex : should_exclude fm (pjoin rel name) pats = true) :
    walkSubs fm pats rel (entsApp es1 (.consDir name subA es2)) =
    walkSubs fm pats rel (entsApp es1 (.consDir name subB es2)) := by
  induction es1 with
  | nil => simp [entsApp, walkSubs, hex]
  | consDir n s rest ihs ih => simp [entsApp, walkSubs, ih]
  | consFile n c l rest ih => simp [entsApp, walkSubs, ih]

/-- C7: when a child directory's joined relative path matches the
exclusion patterns (`should_exclude` matches in particular whenever one of
the path's segments matches a pattern), the walk result does not depend on
the subtree under that directory: it equals the walk with that subtree
replaced by an empty directory.  Hence no file or subdirectory beneath the
excluded directory appears among the created directories or produced
files, and no descendant is ever tested against the pattern set — the
excluded directory itself is tested exactly once, at its parent. -/
theorem C7_excluded_dir_prunes_subtree (fm : String → String → Bool)
    (pats : List String) (rel name : String) (sub : FEnts)
    (es1 es2 : FEnts)
    (hex : should_exclude fm (pjoin rel name) pats = true) :
    walkTree fm pats rel (entsApp es1 (.consDir name sub es2)) =
    walkTree fm pats rel (entsApp es1 (.consDir name .nil es2)) := by
  rw [walkTree, walkTree,
    dirTests_subtree_irrelevant rel name sub .nil es1 es2,
    procFiles_subtree_irrelevant fm pats rel name sub .nil es1 es2,
    walkSubs_excluded_subtree_irrelevant fm pats rel name sub .nil es1 es2 hex]

/-- C7 witness: a `.git` directory with a file inside, under the pattern
list `[".git"]` (matched by segment equality), walks identically to an
empty `.git`. -/
theorem C7_excluded_dir_prunes_subtree_witness :
    walkTree (fun p pat => p == pat) [".git"] "."
      (entsApp .nil (.consDir ".git" (.consFile "HEAD" [65] false .nil) .nil)) =
    walkTree (fun p pat => p == pat) [".git"] "."
      (entsApp .nil (.consDir ".git" .nil .nil)) :=
  C7_excluded_dir_prunes_subtree (fun p pat => p == pat) [".git"] "." ".git"
    (.consFile "HEAD" [65] false .nil) .nil .nil (by decide)

/-! ### Claim C10 (the watch loop skips symbolic links) -/

theorem scanEntry_some {ext : Ext} {patterns : List String}
    {directory side key : String} {mt : ℚ} {e : String × FileInfo}
    (h : scanEntry ext patterns directory side e = some (key, mt)) :
    e.2.isLink = false ∧ key = side ++ ":" ++ relUnder directory e.1 := by
  unfold scanEntry at h
  by_cases h1 : strStartsWith e.1 (directory ++ "/") = true
  · rw [if_pos h1] at h
    by_cases h2 : (scanRelDir directory e.1 != "." &&
        should_exclude ext.fnmatch (scanRelDir directory e.1) patterns) = true
    · rw [if_pos h2] at h
      exact Option.noConfusion h
    · rw [if_neg h2] at h
      by_cases h3 : e.2.isLink = true
      · rw [if_pos h3] at h
        exact Option.noConfusion h
      · rw [if_neg h3] at h
        by_cases h4 : is_temp_editor_file (basename (relUnder directory e.1)) = true
        · rw [if_pos h4] at h
          exact Option.noConfusion h
        · rw [if_neg h4] at h
          by_cases h5 : should_exclude ext.fnmatch (relUnder directory e.1)
              patterns = true
          · rw [if_pos h5] at h
            exact Option.noConfusion h
          · rw [if_neg h5] at h
            have hk := Option.some.inj h
            refine ⟨by simpa using h3, ?_⟩
            have : key = side ++ ":" ++ relUnder directory e.1 :=
              (congrArg Prod.fst hk).symm
            exact this
  · rw [if_neg h1] at h
    exact Option.noConfusion h

theorem scan_files_mem {ext : Ext} {patterns : List String} {fs : FS}
    {directory side key : String} {mt : ℚ}
    (h : (key, mt) ∈ scan_files ext patterns fs directory side) :
    ∃ p fi, (p, fi) ∈ fs.files ∧ fi.isLink = false ∧
      key = side ++ ":" ++ relUnder directory p := by
  unfold scan_files at h
  by_cases hdir : (!fs.pathExists directory) = true
  · rw [if_pos hdir] at h
    exact absurd h (List.not_mem_nil _)
  · rw [if_neg hdir] at h
    obtain ⟨e, he, hsome⟩ := List.mem_filterMap.mp h
    obtain ⟨p, fi⟩ := e
    obtain ⟨hlink, hkey⟩ := scanEntry_some hsome
    exact ⟨p, fi, he, hlink, hkey⟩

/-- Concrete externals for the C10 witness. -/
def c10Ext : Ext :=
  ⟨fun p pat => p == pat, fun _ => (none, 0), witnessRegistry⟩

/-- Concrete configuration for the C10 witness (explicit source encoding,
so the detector is never consulted). -/
def c10Cfg : ConvCfg :=
  ⟨some "euc-jp", "utf-8", none, [], none⟩

/-- Concrete state for the C10 witness: one regular source file. -/
def c10St : WatcherState :=
  ⟨⟨[("/s/a.txt", ⟨[65], 1, false⟩)], ["/s", "/d"]⟩, [], []⟩

/-- C10: every key of the snapshot produced by a tick of the watch loop
refers to a non-symlink file entry of the scanned filesystem — the tree
scan skips every symbolic link, so the sync engine never detects or
propagates symlink changes; by contrast, the one-shot directory
conversion's walk does produce an output for a (non-excluded) symlink
entry, remapping it instead of converting it. -/
theorem C10_watch_skips_symlinks (ext : Ext) (cfg : ConvCfg)
    (src_dir dst_dir key : String) (mt : ℚ) (st : WatcherState)
    (h : (key, mt) ∈ (process_changes ext cfg src_dir dst_dir st).fileMtimes) :
    (∃ p fi, (p, fi) ∈ st.fs.files ∧ fi.isLink = false ∧
      (key = "src:" ++ relUnder src_dir p ∨
       key = "dst:" ++ relUnder dst_dir p)) ∧
    (∀ fm pats rel name content rest,
      should_exclude fm (pjoin rel name) pats = false →
      (walkJoin rel name, true) ∈
        (walkTree fm pats rel (.consFile name content true rest)).filesOut) := by
  constructor
  · have hm : (key, mt) ∈
        scan_files ext cfg.exclude_patterns st.fs src_dir "src" ++
        scan_files ext cfg.exclude_patterns st.fs dst_dir "dst" := h
    rcases List.mem_append.mp hm with hsrc | hdst
    · obtain ⟨p, fi, hpf, hlink, hkey⟩ := scan_files_mem hsrc
      exact ⟨p, fi, hpf, hlink, Or.inl hkey⟩
    · obtain ⟨p, fi, hpf, hlink, hkey⟩ := scan_files_mem hdst
      exact ⟨p, fi, hpf, hlink, Or.inr hkey⟩
  · intro fm pats rel name content rest hex
    simp [walkTree, procFiles, hex]

/-- C10 witness: in a concrete tick over one regular source file, the
snapshot key `src:a.txt` indeed refers to a non-symlink entry. -/
theorem C10_watch_skips_symlinks_witness :
    (∃ p fi, (p, fi) ∈ c10St.fs.files ∧ fi.isLink = false ∧
      ("src:a.txt" = "src:" ++ relUnder "/s" p ∨
       "src:a.txt" = "dst:" ++ relUnder "/d" p)) ∧
    (∀ fm pats rel name content rest,
      should_exclude fm (pjoin rel name) pats = false →
      (walkJoin rel name, true) ∈
        (walkTree fm pats rel (.consFile name content true rest)).filesOut) :=
  C10_watch_skips_symlinks c10Ext c10Cfg "/s" "/d" "src:a.txt" 1 c10St
    (by decide)
